import Mathlib

/-!
Verification of the account constraint validation and derived-address
engine specified for the riotCode/agent-solana-project repository, together
with the repository's instruction handlers (`initialize_with_pda`,
`transfer_with_cpi` / `cpi_transfer`).

The repository's own source consists of Anchor program templates: the
constraint sets are declared through `#[account(...)]` attributes and the
handlers are plain functions. The derivation, validation, building and
dispatch machinery those declarations drive lives in the Anchor framework
and the host runtime, outside the repository's source tree; those parts
are modelled here from the specification's words, each marked
`Modelled from the spec:` in its doc comment. The handlers themselves
(`initialize_with_pda`, `transfer_with_cpi`) are translated directly from
the source files.
-/

namespace SolanaForge

/-- An address is a byte string (each entry a byte value). -/
abbrev Address := List Nat

/-- A program id, itself an address-like value; kept abstract as a byte
string is unnecessary for the derivation model, a natural number id
suffices and keeps the candidate function total. -/
abbrev ProgramId := Nat

/-- A seed specification: an ordered sequence of byte-string components
(literal bytes such as `b"state"`, or a public-key reference such as
`payer.key().as_ref()`). -/
abbrev Seeds := List (List Nat)

/-- Modelled from the spec: the addressing scheme underlying the Address
Derivation Engine (section 4.1), absent from the repository source (it is
`Pubkey::find_program_address` / `create_program_address` of the host
runtime). `candidate` maps (seeds, bump, owning program id) to a candidate
address; `onCurve` is the valid-curve-point predicate the derived address
must fall outside of. -/
structure Scheme where
  candidate : Seeds → Nat → ProgramId → Address
  onCurve : Address → Bool

/-- Modelled from the spec: the error signalled when every candidate bump
in range is a valid curve point. -/
inductive DeriveError where
  | NoValidBump
deriving DecidableEq, Repr

/-- The bump search starts at a fixed maximum (255, one byte) and proceeds
downward, per the spec's convention "conventionally from a fixed maximum
downward". -/
def maxBump : Nat := 255

/-- Modelled from the spec: the descending bump search of `derive`
(section 4.1). Tries bump `b`, then `b - 1`, ..., down to 0, returning the
first candidate address that is off the curve together with its bump. -/
def searchBump (sch : Scheme) (seeds : Seeds) (pid : ProgramId) : Nat → Option (Address × Nat)
  | 0 =>
      if sch.onCurve (sch.candidate seeds 0 pid) then none
      else some (sch.candidate seeds 0 pid, 0)
  | b + 1 =>
      if sch.onCurve (sch.candidate seeds (b + 1) pid) then searchBump sch seeds pid b
      else some (sch.candidate seeds (b + 1) pid, b + 1)

/-- Modelled from the spec: `derive(seeds, owning_program_id) ->
(address, bump)` (section 4.1). Deterministically searches bump values
from the fixed maximum downward until the candidate address is off-curve;
signals `NoValidBump` when every candidate bump in range is on-curve. -/
def derive (sch : Scheme) (seeds : Seeds) (pid : ProgramId) : Except DeriveError (Address × Nat) :=
  match searchBump sch seeds pid maxBump with
  | some r => Except.ok r
  | none => Except.error DeriveError.NoValidBump

/-- Modelled from the spec: `verify(candidate_address, seeds,
owning_program_id) -> bool` (section 4.1). Recomputes the canonical
derivation and compares; accepts only the address produced by the
canonical bump. -/
def verify (sch : Scheme) (addr : Address) (seeds : Seeds) (pid : ProgramId) : Bool :=
  match derive sch seeds pid with
  | Except.ok (a, _) => a == addr
  | Except.error _ => false

/-- Every successful bump search returns the candidate address for the
returned bump, with the bump within the searched range and the address
off-curve. -/
theorem searchBump_spec (sch : Scheme) (seeds : Seeds) (pid : ProgramId) :
    ∀ n a b, searchBump sch seeds pid n = some (a, b) →
      a = sch.candidate seeds b pid ∧ b ≤ n ∧ sch.onCurve a = false := by
  intro n
  induction n with
  | zero =>
      intro a b h
      unfold searchBump at h
      by_cases hc : sch.onCurve (sch.candidate seeds 0 pid)
      · simp [hc] at h
      · simp [hc] at h
        obtain ⟨ha, hb⟩ := h
        subst ha; subst hb
        exact ⟨rfl, Nat.le_refl 0, by simpa using hc⟩
  | succ m ih =>
      intro a b h
      unfold searchBump at h
      by_cases hc : sch.onCurve (sch.candidate seeds (m + 1) pid)
      · simp [hc] at h
        obtain ⟨ha, hb, hoc⟩ := ih a b h
        exact ⟨ha, Nat.le_succ_of_le hb, hoc⟩
      · simp [hc] at h
        obtain ⟨ha, hb⟩ := h
        subst ha; subst hb
        exact ⟨rfl, Nat.le_refl _, by simpa using hc⟩

/-- A successful derivation returns the candidate address of its bump,
with the bump in range. -/
theorem derive_ok_spec (sch : Scheme) (seeds : Seeds) (pid : ProgramId)
    (a : Address) (b : Nat) (h : derive sch seeds pid = Except.ok (a, b)) :
    a = sch.candidate seeds b pid ∧ b ≤ maxBump ∧ sch.onCurve a = false := by
  unfold derive at h
  cases hs : searchBump sch seeds pid maxBump with
  | none => rw [hs] at h; exact absurd h (by simp)
  | some r =>
      rw [hs] at h
      simp at h
      rw [h] at hs
      exact searchBump_spec sch seeds pid maxBump a b hs

/-- Two lists of equal length that agree at every position (under `getD`)
are equal; contrapositive used to turn a one-byte difference into list
inequality. -/
theorem list_ne_of_getD_ne (A B : List Nat) (i : Nat)
    (h : A.getD i 0 ≠ B.getD i 0) : A ≠ B := by
  intro he
  exact h (by rw [he])

/-- C1: for every seed specification S and program id P for which
derive(S, P) succeeds with (address, bump), verify(address, S, P) returns
true, and verify(A, S, P) returns false for every same-length address A
that differs from the derived address in at least one byte. -/
theorem derive_verify_roundtrip (sch : Scheme) (seeds : Seeds) (pid : ProgramId)
    (addr : Address) (b : Nat) (h : derive sch seeds pid = Except.ok (addr, b)) :
    verify sch addr seeds pid = true ∧
      ∀ A : Address, A.length = addr.length →
        (∃ i : Nat, A.getD i 0 ≠ addr.getD i 0) →
        verify sch A seeds pid = false := by
  constructor
  · unfold verify
    rw [h]
    simp
  · intro A _ hdiff
    obtain ⟨i, hi⟩ := hdiff
    have hne : addr ≠ A := fun he => hi (by rw [he])
    unfold verify
    rw [h]
    simpa using hne

/-- Witness for C1 at a concrete scheme: candidate address is
[bump mod 256, program id mod 256]; on-curve means the first byte is 255,
so the canonical bump is 254. -/
def exScheme : Scheme where
  candidate := fun _ b p => [b % 256, p % 256]
  onCurve := fun a => a.headD 0 == 255

theorem derive_verify_roundtrip_witness :
    verify exScheme [254, 7] [[1]] 7 = true ∧
      ∀ A : Address, A.length = ([254, 7] : Address).length →
        (∃ i : Nat, A.getD i 0 ≠ ([254, 7] : Address).getD i 0) →
        verify exScheme A [[1]] 7 = false :=
  derive_verify_roundtrip exScheme [[1]] 7 [254, 7] 254 rfl

/-- C2: for every bump value b' in range different from the canonical
bump returned by derive, verify rejects the address produced from
(S, b', P) — regardless of whether that address is on- or off-curve, so
in particular even when it is itself off-curve — provided the candidate
map does not collide on distinct bumps for these seeds (the
collision-resistance the addressing scheme's hash supplies). -/
theorem verify_rejects_noncanonical_bump (sch : Scheme) (seeds : Seeds) (pid : ProgramId)
    (addr : Address) (b b' : Nat)
    (h : derive sch seeds pid = Except.ok (addr, b))
    (hb' : b' ≤ maxBump) (hne : b' ≠ b)
    (hinj : ∀ b1 b2, b1 ≤ maxBump → b2 ≤ maxBump →
      sch.candidate seeds b1 pid = sch.candidate seeds b2 pid → b1 = b2) :
    verify sch (sch.candidate seeds b' pid) seeds pid = false := by
  obtain ⟨ha, hble, _⟩ := derive_ok_spec sch seeds pid addr b h
  have hne2 : addr ≠ sch.candidate seeds b' pid := by
    intro he
    exact hne (hinj b' b hb' hble (by rw [← he, ha]))
  unfold verify
  rw [h]
  simpa using hne2

theorem verify_rejects_noncanonical_bump_witness :
    verify exScheme (exScheme.candidate [[1]] 253 7) [[1]] 7 = false := by
  have hinj : ∀ b1 b2, b1 ≤ maxBump → b2 ≤ maxBump →
      exScheme.candidate [[1]] b1 7 = exScheme.candidate [[1]] b2 7 → b1 = b2 := by
    intro b1 b2 h1 h2 he
    have hm : b1 % 256 = b2 % 256 := by
      have := congrArg (fun l => List.headD l 0) he
      simpa [exScheme] using this
    have h1' : b1 < 256 := Nat.lt_of_le_of_lt h1 (by decide)
    have h2' : b2 < 256 := Nat.lt_of_le_of_lt h2 (by decide)
    rwa [Nat.mod_eq_of_lt h1', Nat.mod_eq_of_lt h2'] at hm
  exact verify_rejects_noncanonical_bump exScheme [[1]] 7 [254, 7] 254 253
    rfl (by decide) (by decide) hinj

/-- When every bump in the search range is on-curve, the search is
exhausted without a result. -/
theorem searchBump_none_of_all_onCurve (sch : Scheme) (seeds : Seeds) (pid : ProgramId) :
    ∀ n, (∀ b, b ≤ n → sch.onCurve (sch.candidate seeds b pid) = true) →
      searchBump sch seeds pid n = none := by
  intro n
  induction n with
  | zero =>
      intro hall
      unfold searchBump
      simp [hall 0 (Nat.le_refl 0)]
  | succ m ih =>
      intro hall
      unfold searchBump
      simp [hall (m + 1) (Nat.le_refl _)]
      exact ih fun b hb => hall b (Nat.le_succ_of_le hb)

/-- C8: for every seed specification and program id for which every
candidate bump in the search range yields a valid curve point, derive
returns the NoValidBump error — a signalled failure, not a panic or an
unflagged result. -/
theorem derive_noValidBump (sch : Scheme) (seeds : Seeds) (pid : ProgramId)
    (hall : ∀ b, b ≤ maxBump → sch.onCurve (sch.candidate seeds b pid) = true) :
    derive sch seeds pid = Except.error DeriveError.NoValidBump := by
  unfold derive
  rw [searchBump_none_of_all_onCurve sch seeds pid maxBump hall]

/-- A degenerate scheme on which every candidate address is on-curve,
used to exhibit the NoValidBump case concretely. -/
def allCurveScheme : Scheme where
  candidate := fun _ b p => [b % 256, p % 256]
  onCurve := fun _ => true

theorem derive_noValidBump_witness :
    derive allCurveScheme [[1]] 7 = Except.error DeriveError.NoValidBump :=
  derive_noValidBump allCurveScheme [[1]] 7 (fun _ _ => rfl)

/-- An account record, per the spec's data model: (address,
owning-program-id, lamport balance, raw data bytes, is-signer,
is-writable, is-executable). -/
structure AccountRecord where
  address : Address
  owner : ProgramId
  lamports : Nat
  data : List Nat
  isSigner : Bool
  isWritable : Bool
  isExecutable : Bool
deriving DecidableEq, Repr

/-- The fixed width of the leading type discriminator. The source layouts
reserve 8 bytes for it (`space = 8 + 8, // discriminator + data`). -/
def discLen : Nat := 8

/-- The leading type tag stored in an account's data. -/
def discOf (r : AccountRecord) : List Nat :=
  r.data.take discLen

/-- Modelled from the spec: the sentinel "empty" discriminator value — an
all-zero byte string (a freshly allocated, never-initialized account's
data is all zeros). -/
def isEmptySentinel (d : List Nat) : Bool :=
  d.all (fun x => x == 0)

/-- Modelled from the spec: the declarative constraint predicates of a
Constraint Set (section 3 data model), declared in the source through
`#[account(...)]` attributes and field wrapper types (`Signer`,
`#[account(mut)]`, `init`, `seeds`, `bump`). -/
inductive Constraint where
  | mustBeSigner
  | mustBeWritable
  | mustBeOwnedBy (pid : ProgramId)
  | mustBeDerivedFrom (seeds : Seeds)
  | mustBeUninitialized
  | mustMatchDiscriminator (tag : List Nat)
deriving DecidableEq, Repr

/-- The violation kinds, one per predicate kind (spec section 7:
signer/writable/owner/derivation/init-state/discriminator mismatch). -/
inductive ViolationKind where
  | signer
  | writable
  | owner
  | derivation
  | initState
  | discriminator
deriving DecidableEq, Repr

/-- A constraint violation carries its kind and the offending account
slot's name for diagnostics (spec section 7). -/
structure ConstraintViolation where
  kind : ViolationKind
  slot : String
deriving DecidableEq, Repr

/-- The violation kind reported when a given predicate fails. -/
def kindOf : Constraint → ViolationKind
  | Constraint.mustBeSigner => ViolationKind.signer
  | Constraint.mustBeWritable => ViolationKind.writable
  | Constraint.mustBeOwnedBy _ => ViolationKind.owner
  | Constraint.mustBeDerivedFrom _ => ViolationKind.derivation
  | Constraint.mustBeUninitialized => ViolationKind.initState
  | Constraint.mustMatchDiscriminator _ => ViolationKind.discriminator

/-- Modelled from the spec: the must-be-uninitialized check (section
4.2): the stored discriminator is the sentinel "empty" value and the
account carries zero data length or a recognized empty-state marker
(all-zero data). -/
def checkUninit (r : AccountRecord) : Bool :=
  isEmptySentinel (discOf r) && (r.data.length == 0 || r.data.all (fun x => x == 0))

/-- Modelled from the spec: evaluation of one constraint predicate
against an account record (section 4.2). `mustBeDerivedFrom` delegates to
4.1's `verify` under the canonical-bump policy; `mustMatchDiscriminator`
compares the leading type tag with the expected tag. -/
def checkOne (sch : Scheme) (pid : ProgramId) (r : AccountRecord) : Constraint → Bool
  | Constraint.mustBeSigner => r.isSigner
  | Constraint.mustBeWritable => r.isWritable
  | Constraint.mustBeOwnedBy p => r.owner == p
  | Constraint.mustBeDerivedFrom seeds => verify sch r.address seeds pid
  | Constraint.mustBeUninitialized => checkUninit r
  | Constraint.mustMatchDiscriminator tag => discOf r == tag

/-- The immutable validated handle produced by a successful validation. -/
structure ValidatedAccount where
  record : AccountRecord
deriving DecidableEq, Repr

/-- Modelled from the spec: `validate(account_record, constraint_set) ->
ValidatedAccount | ConstraintViolation` (section 4.2). Evaluates every
predicate in order, short-circuiting on the first failure and tagging the
result with the failed predicate's kind and the slot name. -/
def validate (sch : Scheme) (pid : ProgramId) (r : AccountRecord) (slot : String) :
    List Constraint → Except ConstraintViolation ValidatedAccount
  | [] => Except.ok ⟨r⟩
  | c :: cs =>
      if checkOne sch pid r c then validate sch pid r slot cs
      else Except.error ⟨kindOf c, slot⟩

/-- If any member of the constraint set fails on the record, validation
does not succeed (all predicates must hold). -/
theorem validate_fails_of_mem_false (sch : Scheme) (pid : ProgramId) (r : AccountRecord)
    (slot : String) :
    ∀ cs : List Constraint, ∀ c ∈ cs, checkOne sch pid r c = false →
      ∃ v, validate sch pid r slot cs = Except.error v := by
  intro cs
  induction cs with
  | nil => intro c hc; exact absurd hc (List.not_mem_nil c)
  | cons d ds ih =>
      intro c hc hfail
      unfold validate
      by_cases hd : checkOne sch pid r d
      · simp [hd]
        rcases List.mem_cons.mp hc with he | hm
        · rw [he] at hfail; rw [hd] at hfail; exact absurd hfail (by simp)
        · exact ih c hm hfail
      · exact ⟨⟨kindOf d, slot⟩, by simp [hd]⟩

/-- C4: a record passing must-match-discriminator for declared type A
fails it for every distinct declared type B (distinct type tags), and is
never validated successfully against a constraint set expecting type B —
regardless of any byte-layout overlap beyond the tag. -/
theorem discriminator_separates_types (sch : Scheme) (pid : ProgramId) (r : AccountRecord)
    (tagA tagB : List Nat)
    (hA : checkOne sch pid r (Constraint.mustMatchDiscriminator tagA) = true)
    (hne : tagA ≠ tagB) :
    checkOne sch pid r (Constraint.mustMatchDiscriminator tagB) = false ∧
      ∀ (slot : String) (cs : List Constraint),
        Constraint.mustMatchDiscriminator tagB ∈ cs →
        ∃ v, validate sch pid r slot cs = Except.error v := by
  have hAeq : discOf r = tagA := by simpa [checkOne] using hA
  have hBfail : checkOne sch pid r (Constraint.mustMatchDiscriminator tagB) = false := by
    simp [checkOne, hAeq]
    exact hne
  refine ⟨hBfail, ?_⟩
  intro slot cs hmem
  exact validate_fails_of_mem_false sch pid r slot cs _ hmem hBfail

/-- A record already carrying the 8-byte discriminator of type A
(tag [1,2,3,4,5,6,7,8]) followed by a payload. -/
def exRecordA : AccountRecord where
  address := [9]
  owner := 7
  lamports := 1
  data := [1, 2, 3, 4, 5, 6, 7, 8, 0, 0, 0, 0, 0, 0, 0, 0]
  isSigner := false
  isWritable := true
  isExecutable := false

theorem discriminator_separates_types_witness :
    checkOne exScheme 7 exRecordA
        (Constraint.mustMatchDiscriminator [8, 7, 6, 5, 4, 3, 2, 1]) = false ∧
      ∀ (slot : String) (cs : List Constraint),
        Constraint.mustMatchDiscriminator [8, 7, 6, 5, 4, 3, 2, 1] ∈ cs →
        ∃ v, validate exScheme 7 exRecordA slot cs = Except.error v :=
  discriminator_separates_types exScheme 7 exRecordA
    [1, 2, 3, 4, 5, 6, 7, 8] [8, 7, 6, 5, 4, 3, 2, 1] (by decide) (by decide)

/-- A constraint set whose first predicate is must-be-signer and whose
second requires owner 1, as an instruction slot may declare
(`payer: Signer` carries both signer and ownership expectations). -/
def exOwnerCs : List Constraint :=
  [Constraint.mustBeSigner, Constraint.mustBeOwnedBy 1]

/-- A record whose owner (2) differs from the required owner (1) and
which additionally is not a signer. -/
def exBadOwnerRecord : AccountRecord where
  address := [9]
  owner := 2
  lamports := 1
  data := []
  isSigner := false
  isWritable := true
  isExecutable := false

/-- C5 counterexample: a record whose owning-program-id differs from the
required owner, validated against a set whose earlier signer predicate
also fails, is rejected with a signer violation, not an ownership one:
the reported kind does depend on the other fields of the record. -/
theorem owner_mismatch_kind_counterexample :
    exBadOwnerRecord.owner ≠ 1 ∧
      validate exScheme 0 exBadOwnerRecord "payer" exOwnerCs =
        Except.error ⟨ViolationKind.signer, "payer"⟩ ∧
      ViolationKind.signer ≠ ViolationKind.owner :=
  ⟨by decide, rfl, by decide⟩

/-- C5 (amended): a record whose owning-program-id differs from the
required owner always fails validation; the reported violation is of the
ownership kind whenever every other predicate of the set holds on the
record (in particular whenever all other fields match), the short-circuit
order otherwise reporting the earlier failure. -/
theorem owner_mismatch_fails_validation (sch : Scheme) (pid : ProgramId)
    (r : AccountRecord) (slot : String) (cs : List Constraint) (p : ProgramId)
    (hmem : Constraint.mustBeOwnedBy p ∈ cs)
    (hmm : (r.owner == p) = false) :
    (∃ v, validate sch pid r slot cs = Except.error v) ∧
      ((∀ c ∈ cs, c ≠ Constraint.mustBeOwnedBy p → checkOne sch pid r c = true) →
        validate sch pid r slot cs = Except.error ⟨ViolationKind.owner, slot⟩) := by
  constructor
  · exact validate_fails_of_mem_false sch pid r slot cs _ hmem (by simpa [checkOne] using hmm)
  · intro hall
    induction cs with
    | nil => exact absurd hmem (List.not_mem_nil _)
    | cons d ds ih =>
        unfold validate
        by_cases hd : d = Constraint.mustBeOwnedBy p
        · rw [hd]
          simp [checkOne, hmm, kindOf]
        · have hpass : checkOne sch pid r d = true := hall d (List.mem_cons_self d ds) hd
          simp [hpass]
          have hmem2 : Constraint.mustBeOwnedBy p ∈ ds := by
            rcases List.mem_cons.mp hmem with he | hm
            · exact absurd he.symm hd
            · exact hm
          exact ih hmem2 fun c hc hne => hall c (List.mem_cons_of_mem d hc) hne

/-- A record matching every predicate of `exOwnerCs` except the required
owner: it is a signer, but is owned by program 2 instead of 1. -/
def exOnlyOwnerBadRecord : AccountRecord where
  address := [9]
  owner := 2
  lamports := 1
  data := []
  isSigner := true
  isWritable := true
  isExecutable := false

theorem owner_mismatch_fails_validation_witness :
    (∃ v, validate exScheme 0 exOnlyOwnerBadRecord "payer" exOwnerCs = Except.error v) ∧
      validate exScheme 0 exOnlyOwnerBadRecord "payer" exOwnerCs =
        Except.error ⟨ViolationKind.owner, "payer"⟩ := by
  have h := owner_mismatch_fails_validation exScheme 0 exOnlyOwnerBadRecord "payer"
    exOwnerCs 1 (by decide) (by decide)
  exact ⟨h.1, h.2 (by decide)⟩

/-- The handler's initialization effect on the account record: it writes
the account's type discriminator into the leading bytes of the data
(source: the `init` attribute on the `state` slot allocates the account
and the framework stamps the type tag before the handler body runs). -/
def writeDiscriminator (r : AccountRecord) (tag : List Nat) : AccountRecord :=
  { r with data := tag ++ r.data.drop discLen }

/-- C6: when the "state" slot's must-be-uninitialized check passes on a
record and the initialization then writes a fixed-width, non-sentinel
type discriminator, re-validating the same record fails with an
init-state violation — and no constraint set containing
must-be-uninitialized ever validates that record again. -/
theorem uninit_never_repasses (sch : Scheme) (pid : ProgramId) (r : AccountRecord)
    (slot : String) (tag : List Nat)
    (hfirst : checkUninit r = true)
    (hlen : tag.length = discLen)
    (hnz : tag.all (fun x => x == 0) = false) :
    validate sch pid r slot [Constraint.mustBeUninitialized] = Except.ok ⟨r⟩ ∧
      validate sch pid (writeDiscriminator r tag) slot [Constraint.mustBeUninitialized] =
        Except.error ⟨ViolationKind.initState, slot⟩ ∧
      ∀ cs : List Constraint, Constraint.mustBeUninitialized ∈ cs →
        ∃ v, validate sch pid (writeDiscriminator r tag) slot cs = Except.error v := by
  have hdisc : discOf (writeDiscriminator r tag) = tag := by
    unfold discOf writeDiscriminator
    simp [← hlen, List.take_left]
  have hfail : checkUninit (writeDiscriminator r tag) = false := by
    unfold checkUninit
    rw [hdisc]
    unfold isEmptySentinel
    simp [hnz]
  refine ⟨?_, ?_, ?_⟩
  · simp [validate, checkOne, hfirst]
  · simp [validate, checkOne, hfail, kindOf]
  · intro cs hmem
    exact validate_fails_of_mem_false sch pid (writeDiscriminator r tag) slot cs _
      hmem (by simpa [checkOne] using hfail)

/-- A freshly allocated "state" account: 16 zero bytes (8-byte sentinel
discriminator plus an 8-byte zeroed count field, `space = 8 + 8`). -/
def exFreshState : AccountRecord where
  address := [3]
  owner := 7
  lamports := 1
  data := [0, 0, 0, 0, 0, 0, 0, 0, 0, 0, 0, 0, 0, 0, 0, 0]
  isSigner := false
  isWritable := true
  isExecutable := false

theorem uninit_never_repasses_witness :
    validate exScheme 7 exFreshState "state" [Constraint.mustBeUninitialized] =
        Except.ok ⟨exFreshState⟩ ∧
      validate exScheme 7 (writeDiscriminator exFreshState [1, 2, 3, 4, 5, 6, 7, 8]) "state"
          [Constraint.mustBeUninitialized] =
        Except.error ⟨ViolationKind.initState, "state"⟩ ∧
      ∀ cs : List Constraint, Constraint.mustBeUninitialized ∈ cs →
        ∃ v, validate exScheme 7 (writeDiscriminator exFreshState [1, 2, 3, 4, 5, 6, 7, 8])
          "state" cs = Except.error v :=
  uninit_never_repasses exScheme 7 exFreshState "state" [1, 2, 3, 4, 5, 6, 7, 8]
    (by decide) (by decide) (by decide)

/-- An account reference in an invocation's account list, tagged
writable/signer (spec section 3, Invocation Descriptor). -/
structure AcctRef where
  acct : ValidatedAccount
  writable : Bool
  signer : Bool
deriving DecidableEq, Repr

/-- The invocation descriptor: target program id, ordered account
references, serialized payload, and the delegated authorities attached
(spec section 3). -/
structure InvocationDescriptor where
  target : ProgramId
  accounts : List AcctRef
  payload : List Nat
  authorities : List (Address × Seeds)
deriving Repr

/-- Modelled from the spec: the Invocation Builder's failure taxonomy
(section 4.3). -/
inductive BuildError where
  | UnauthorizedDelegation
  | InvalidAccountFlags
deriving DecidableEq, Repr

/-- An account reference asserting the signer flag is backed either by a
direct signature on the underlying record or by a delegated authority
over its address (spec section 4.3, flag legitimacy). -/
def hasAuthority (auths : List (Address × Seeds)) (ar : AcctRef) : Bool :=
  ar.acct.record.isSigner || auths.any (fun pr => pr.1 == ar.acct.record.address)

/-- Modelled from the spec: `build(target_program_id, accounts, payload,
delegated_authorities) -> InvocationDescriptor` (section 4.3). Each
delegated authority is first checked derivable by the current program via
4.1's verify (`UnauthorizedDelegation` otherwise); then every asserted
signer flag must be backed by some authority (`InvalidAccountFlags`
otherwise); order and flags of the account list are preserved. -/
def build (sch : Scheme) (currentPid : ProgramId) (target : ProgramId)
    (accounts : List AcctRef) (payload : List Nat)
    (auths : List (Address × Seeds)) : Except BuildError InvocationDescriptor :=
  if auths.all (fun pr => verify sch pr.1 pr.2 currentPid) then
    if accounts.all (fun ar => !ar.signer || hasAuthority auths ar) then
      Except.ok ⟨target, accounts, payload, auths⟩
    else Except.error BuildError.InvalidAccountFlags
  else Except.error BuildError.UnauthorizedDelegation

/-- C3: every delegated authority attached to a built descriptor is
derivable by the current program (its address verifies against its seeds
under the current program id), and when a claimed authority's address is
not derivable by the current program under any seed specification, build
fails with UnauthorizedDelegation — no descriptor carrying the claim is
produced. -/
theorem build_delegation_sound (sch : Scheme) (currentPid target : ProgramId)
    (accounts : List AcctRef) (payload : List Nat)
    (auths : List (Address × Seeds)) :
    (∀ d, build sch currentPid target accounts payload auths = Except.ok d →
        ∀ pr ∈ d.authorities, verify sch pr.1 pr.2 currentPid = true) ∧
      (∀ pr ∈ auths, (∀ s : Seeds, verify sch pr.1 s currentPid = false) →
        build sch currentPid target accounts payload auths =
          Except.error BuildError.UnauthorizedDelegation) := by
  constructor
  · intro d hok pr hpr
    unfold build at hok
    by_cases hall : auths.all (fun pr => verify sch pr.1 pr.2 currentPid)
    · rw [if_pos hall] at hok
      by_cases hfl : accounts.all (fun ar => !ar.signer || hasAuthority auths ar)
      · rw [if_pos hfl] at hok
        simp at hok
        have hmem : pr ∈ auths := by
          have : d.authorities = auths := by rw [← hok]
          rwa [this] at hpr
        exact List.all_eq_true.mp hall pr hmem
      · rw [if_neg hfl] at hok; exact absurd hok (by simp)
    · rw [if_neg hall] at hok; exact absurd hok (by simp)
  · intro pr hpr hnone
    unfold build
    have hnotall : auths.all (fun pr => verify sch pr.1 pr.2 currentPid) = false := by
      rcases Bool.eq_false_or_eq_true (auths.all fun pr => verify sch pr.1 pr.2 currentPid)
        with ht | hf
      · have := List.all_eq_true.mp ht pr hpr
        rw [hnone pr.2] at this
        exact absurd this (by simp)
      · exact hf
    rw [if_neg (by simp [hnotall])]

/-- A validated payer account used in the builder witness. -/
def exPayerRef : AcctRef where
  acct := ⟨{ address := [5], owner := 0, lamports := 10, data := [],
             isSigner := true, isWritable := true, isExecutable := false }⟩
  writable := true
  signer := true

theorem build_delegation_sound_witness :
    (∀ d, build exScheme 7 0 [exPayerRef] [2] [([], [[1]])] = Except.ok d →
        ∀ pr ∈ d.authorities, verify exScheme pr.1 pr.2 7 = true) ∧
      build exScheme 7 0 [exPayerRef] [2] [([], [[1]])] =
        Except.error BuildError.UnauthorizedDelegation := by
  have h := build_delegation_sound exScheme 7 0 [exPayerRef] [2] [([], [[1]])]
  exact ⟨h.1, h.2 ([], [[1]]) (by simp) fun _ => rfl⟩

/-- A named account slot of an instruction's declared account list
together with its constraint set (spec section 3: constraint sets are
attached to named slots, immutable at validation time). -/
structure Slot where
  name : String
  constraints : List Constraint
deriving DecidableEq, Repr

/-- Validation of one declared slot against the raw record supplied for
it. -/
def validateSlot (sch : Scheme) (pid : ProgramId) (pr : Slot × AccountRecord) :
    Except ConstraintViolation ValidatedAccount :=
  validate sch pid pr.2 pr.1.name pr.1.constraints

/-- Modelled from the spec: slot-by-slot validation of an instruction's
account list, stopping at the first violation (section 4.4). -/
def validateAll (sch : Scheme) (pid : ProgramId) :
    List (Slot × AccountRecord) → Except ConstraintViolation (List ValidatedAccount)
  | [] => Except.ok []
  | pr :: rest =>
      match validateSlot sch pid pr with
      | Except.error v => Except.error v
      | Except.ok va =>
          match validateAll sch pid rest with
          | Except.error v => Except.error v
          | Except.ok vs => Except.ok (va :: vs)

/-- Modelled from the spec: the Dispatcher contract (section 4.4). Looks
up the instruction's declared slots, validates every account slot, and
only then invokes the handler — with the validated accounts, never raw
records. -/
def dispatch {α : Type} (sch : Scheme) (pid : ProgramId) (slots : List Slot)
    (handler : List ValidatedAccount → List Nat → α)
    (records : List AccountRecord) (payload : List Nat) : Except ConstraintViolation α :=
  match validateAll sch pid (slots.zip records) with
  | Except.error v => Except.error v
  | Except.ok vs => Except.ok (handler vs payload)

/-- If some slot of the list fails its validation, the slot-by-slot
validation of the whole list fails. -/
theorem validateAll_error_of_exists (sch : Scheme) (pid : ProgramId) :
    ∀ l : List (Slot × AccountRecord),
      (∃ pr ∈ l, ∃ v, validateSlot sch pid pr = Except.error v) →
      ∃ v, validateAll sch pid l = Except.error v := by
  intro l
  induction l with
  | nil => intro hexists; simp at hexists
  | cons pr rest ih =>
      intro hexists
      unfold validateAll
      cases hpr : validateSlot sch pid pr with
      | error v => exact ⟨v, rfl⟩
      | ok va =>
          rcases hexists with ⟨pr0, hmem, v0, hv0⟩
          rcases List.mem_cons.mp hmem with he | hm
          · rw [he] at hv0; rw [hpr] at hv0; exact absurd hv0 (by simp)
          · obtain ⟨v1, hv1⟩ := ih ⟨pr0, hm, v0, hv0⟩
            rw [hv1]
            exact ⟨v1, rfl⟩

/-- C7: if any account slot fails validation against its declared
constraint set, the instruction aborts with that violation before the
handler runs — the outcome is one fixed error, the same for every
possible handler — and the handler executes exactly when every slot
passed, receiving precisely the validated accounts produced by
validation. -/
theorem dispatcher_all_or_nothing {α : Type} (sch : Scheme) (pid : ProgramId)
    (slots : List Slot) (records : List AccountRecord) (payload : List Nat) :
    ((∃ pr ∈ slots.zip records, ∃ v, validateSlot sch pid pr = Except.error v) →
        ∃ v, ∀ handler : List ValidatedAccount → List Nat → α,
          dispatch sch pid slots handler records payload = Except.error v) ∧
      (∀ vs, validateAll sch pid (slots.zip records) = Except.ok vs →
        ∀ handler : List ValidatedAccount → List Nat → α,
          dispatch sch pid slots handler records payload = Except.ok (handler vs payload)) := by
  constructor
  · intro hexists
    obtain ⟨v, hv⟩ := validateAll_error_of_exists sch pid (slots.zip records) hexists
    exact ⟨v, fun handler => by unfold dispatch; rw [hv]⟩
  · intro vs hok handler
    unfold dispatch
    rw [hok]

/-- The "payer" slot of the source instructions: a mutable signer
(`#[account(mut)] pub payer: Signer`). -/
def payerSlot : Slot where
  name := "payer"
  constraints := [Constraint.mustBeSigner, Constraint.mustBeWritable]

/-- A record satisfying the payer slot's constraints. -/
def exGoodPayer : AccountRecord where
  address := [5]
  owner := 0
  lamports := 10
  data := []
  isSigner := true
  isWritable := true
  isExecutable := false

theorem dispatcher_all_or_nothing_witness :
    (∃ v, ∀ handler : List ValidatedAccount → List Nat → Nat,
        dispatch exScheme 7 [payerSlot] handler [exBadOwnerRecord] [] = Except.error v) ∧
      ∀ handler : List ValidatedAccount → List Nat → Nat,
        dispatch exScheme 7 [payerSlot] handler [exGoodPayer] [] =
          Except.ok (handler [⟨exGoodPayer⟩] []) := by
  constructor
  · exact (dispatcher_all_or_nothing exScheme 7 [payerSlot] [exBadOwnerRecord] []).1
      ⟨(payerSlot, exBadOwnerRecord), by simp,
        ⟨ViolationKind.signer, "payer"⟩, rfl⟩
  · exact (dispatcher_all_or_nothing exScheme 7 [payerSlot] [exGoodPayer] []).2
      [⟨exGoodPayer⟩] rfl

/-- The error type of a handler result (`Result<()>` in the source);
handlers in this repository never construct an error themselves. -/
inductive ProgramError where
  | custom (code : Nat)
deriving DecidableEq, Repr

/-- The `State` account type of the source
(`#[account] pub struct State { pub count: u64 }`): a single u64 field.
Values are naturals; the only value the handlers write is 0, within u64
range. -/
structure State where
  count : Nat
deriving DecidableEq, Repr

/-- The `InitializeWithPda` accounts context of the source: payer
(mutable signer), the freshly initialized `state` account, and the system
program. -/
structure InitializeWithPda where
  payer : AccountRecord
  state : State
  system_program : ProgramId
deriving DecidableEq, Repr

/-- The `initialize_with_pda` handler, translated from
src/examples/forge_demo_local/programs/forge_demo/src/lib.rs (identical in
token_mint and my_vault): sets `state.count = 0` and returns Ok. The
`msg!` log is a pure diagnostic and is not modelled. -/
def initialize_with_pda (ctx : InitializeWithPda) : Except ProgramError InitializeWithPda :=
  Except.ok { ctx with state := { ctx.state with count := 0 } }

/-- C9: every execution of initialize_with_pda returns Ok, the state
account's count field equals 0 on return, and no other part of the
context is written — the payer and system program are returned unchanged,
and the state record (whose only field is count) is exactly
`\x7b count := 0 \x7d`. -/
theorem initialize_with_pda_sets_count_zero (ctx : InitializeWithPda) :
    ∃ ctx2, initialize_with_pda ctx = Except.ok ctx2 ∧
      ctx2.state.count = 0 ∧ ctx2.state = { count := 0 } ∧
      ctx2.payer = ctx.payer ∧ ctx2.system_program = ctx.system_program :=
  ⟨{ ctx with state := { ctx.state with count := 0 } }, rfl, rfl, rfl, rfl, rfl⟩

/-- The `Transfer` accounts of `anchor_lang::system_program`, as used by
the source: `from` (named `from_`, `to_` here, `from` and `to` being reserved words). -/
structure Transfer where
  from_ : AccountRecord
  to_ : AccountRecord
deriving DecidableEq, Repr

/-- A CPI context: target program, its accounts, and the PDA signer-seed
sets attached for delegated signing (`CpiContext::new` attaches none;
only `new_with_signer` would). -/
structure CpiContext where
  program : AccountRecord
  accounts : Transfer
  signer_seeds : List (List (List Nat))
deriving DecidableEq, Repr

/-- `CpiContext::new(program, accounts)`: no signer seeds attached. -/
def CpiContext.new (program : AccountRecord) (accounts : Transfer) : CpiContext :=
  ⟨program, accounts, []⟩

/-- The system-program transfer invocation as handed to the host runtime:
the invoked program, source and destination accounts, the lamport amount,
and the delegated signer seeds propagated with it. -/
structure SystemTransfer where
  program : AccountRecord
  from_ : AccountRecord
  to_ : AccountRecord
  lamports : Nat
  signer_seeds : List (List (List Nat))
deriving DecidableEq, Repr

/-- `anchor_lang::system_program::transfer(cpi_ctx, amount)`: emits the
transfer invocation described by the CPI context with the given amount.
Its observable effect — the invocation handed to the runtime — is the
return value here. -/
def transfer (cpi_ctx : CpiContext) (amount : Nat) : Except ProgramError SystemTransfer :=
  Except.ok ⟨cpi_ctx.program, cpi_ctx.accounts.from_, cpi_ctx.accounts.to_, amount,
    cpi_ctx.signer_seeds⟩

/-- The `TransferWithCpi` accounts context of the source: mutable signer
payer, unchecked mutable recipient, system program. pda_vault's
`InitializeWithCpi` declares the same fields. -/
structure TransferWithCpi where
  payer : AccountRecord
  recipient : AccountRecord
  system_program : AccountRecord
deriving DecidableEq, Repr

/-- The `transfer_with_cpi` handler, translated from
src/examples/forge_demo_local/programs/forge_demo/src/lib.rs (identical
in my_vault): builds `Transfer \x7b from: payer, to: recipient \x7d`, wraps it
in `CpiContext::new` with the system program, and calls `transfer` with
the given amount. -/
def transfer_with_cpi (ctx : TransferWithCpi) (amount : Nat) : Except ProgramError SystemTransfer :=
  let transfer_accounts : Transfer := { from_ := ctx.payer, to_ := ctx.recipient }
  let cpi_ctx := CpiContext.new ctx.system_program transfer_accounts
  transfer cpi_ctx amount

/-- The free-standing `cpi_transfer` of
src/pda-vault/programs/pda_vault/src/lib.rs, whose body is the same
construction. -/
def cpi_transfer (ctx : TransferWithCpi) (amount : Nat) : Except ProgramError SystemTransfer :=
  let transfer_accounts : Transfer := { from_ := ctx.payer, to_ := ctx.recipient }
  let cpi_ctx := CpiContext.new ctx.system_program transfer_accounts
  transfer cpi_ctx amount

/-- C10: every call to transfer_with_cpi (and cpi_transfer) emits a
system-program invocation whose source is the payer, whose destination is
the recipient, whose amount is passed through unchanged, and which
attaches no delegated PDA signer seeds — only the payer's direct
signature authority reaches the callee; cpi_transfer emits the identical
invocation. -/
theorem transfer_with_cpi_call_shape (ctx : TransferWithCpi) (amount : Nat) :
    ∃ call, transfer_with_cpi ctx amount = Except.ok call ∧
      call.from_ = ctx.payer ∧ call.to_ = ctx.recipient ∧
      call.lamports = amount ∧ call.program = ctx.system_program ∧
      call.signer_seeds = [] ∧
      cpi_transfer ctx amount = Except.ok call :=
  ⟨⟨ctx.system_program, ctx.payer, ctx.recipient, amount, []⟩,
    rfl, rfl, rfl, rfl, rfl, rfl, rfl⟩

end SolanaForge
